import Mathlib

/-!
Verification of the SkillSync peer-to-peer skill-exchange application.

Shallow embedding of the client pages (Schedule, Match, Dashboard,
Leaderboard), the ChatDialog component, the serverless notification
functions, and the SQL schema constraints, with theorems checking the
specification's claims about them.

JavaScript numbers are modelled as exact rationals, JS strings as Lean
strings, nullable columns and optional-chained fields as Option, and
database tables as lists of row structures.
-/

/-! ## Schedule page (`handleStatusUpdate`) and the sessions schema -/

/-- A row of the `sessions` table, as selected by the Schedule page
(interface `Session` in the Schedule component). -/
structure Session where
  id : String
  scheduled_at : String
  duration_minutes : Nat
  teacher_id : String
  learner_id : String
  skill : String
  status : String
  notes : Option String
  meeting_link : Option String
deriving DecidableEq

/-- The column values written by the sessions-table update issued by
`handleStatusUpdate` (`.update({ status, meeting_link })`). -/
structure SessionUpdate where
  status : String
  meeting_link : Option String
deriving DecidableEq

/-- `handleStatusUpdate(sessionId, newStatus)` from the Schedule page.
When confirming a session that has no meeting link yet it first invokes
the `create-whereby-meeting` function (`createdRoomUrl` is that call's
result, `none` when it errors); on a meeting-creation error the function
returns early and issues no update.  Otherwise it updates the session row
with the new status and the meeting link. -/
def handleStatusUpdate (session : Session) (newStatus : String)
    (createdRoomUrl : Option String) : Option SessionUpdate :=
  if newStatus == "confirmed" && session.meeting_link.isNone then
    match createdRoomUrl with
    | none => none
    | some url => some { status := newStatus, meeting_link := some url }
  else
    some { status := newStatus, meeting_link := session.meeting_link }

/-- The `valid_status` CHECK constraint of the `sessions` table:
`status IN ('pending', 'confirmed', 'cancelled', 'completed')`. -/
def validStatus (status : String) : Bool :=
  ["pending", "confirmed", "cancelled", "completed"].contains status

/-- The status values the Schedule page's buttons pass to
`handleStatusUpdate`: Confirm passes 'confirmed', Decline passes
'declined', Mark as Completed passes 'completed'. -/
def scheduleButtonStatuses : List String :=
  ["confirmed", "declined", "completed"]

/-- A concrete pending session, as displayed on the Schedule page. -/
def cexSession : Session :=
  { id := "s1", scheduled_at := "2025-12-01T10:00:00Z", duration_minutes := 60,
    teacher_id := "t1", learner_id := "l1", skill := "Python",
    status := "pending", notes := none, meeting_link := none }

/-! ## Match page (`filterProfiles`) -/

/-- A profile row as fetched by the Match page
(`id, full_name, bio, skills_to_teach, skills_to_learn`); the text and
array columns are nullable. -/
structure MatchProfile where
  id : String
  full_name : Option String
  bio : Option String
  skills_to_teach : Option (List String)
  skills_to_learn : Option (List String)
deriving DecidableEq

/-- JavaScript `a.includes(b)` on the character lists of two strings:
`sub` occurs as a contiguous substring. -/
def strIncludesChars (sub : List Char) : List Char → Bool
  | [] => sub.isEmpty
  | c :: rest => sub.isPrefixOf (c :: rest) || strIncludesChars sub rest

/-- JavaScript `s.includes(sub)`. -/
def strIncludes (s sub : String) : Bool :=
  strIncludesChars sub.data s.data

/-- JavaScript `s.toLowerCase()`: lowercase each character. -/
def jsToLower (s : String) : String :=
  ⟨s.data.map Char.toLower⟩

/-- The optional-chained test
`field?.toLowerCase().includes(query.toLowerCase())`: a null field never
matches. -/
def optTextMatch (field : Option String) (query : String) : Bool :=
  match field with
  | none => false
  | some s => strIncludes (jsToLower s) (jsToLower query)

/-- The first reassignment of `filtered` in `filterProfiles`: when
`searchQuery` is non-empty, keep profiles whose lowercased name or bio
contains the lowercased query. -/
def searchFilterPass (profiles : List MatchProfile)
    (searchQuery : String) : List MatchProfile :=
  if searchQuery ≠ "" then
    profiles.filter (fun profile =>
      optTextMatch profile.full_name searchQuery ||
      optTextMatch profile.bio searchQuery)
  else profiles

/-- The second reassignment of `filtered` in `filterProfiles`: when
`skillFilter` is non-empty, keep profiles some of whose skills (to teach
or to learn, lowercased) contain the lowercased filter. -/
def skillFilterPass (profiles : List MatchProfile)
    (skillFilter : String) : List MatchProfile :=
  if skillFilter ≠ "" then
    profiles.filter (fun profile =>
      ((profile.skills_to_teach.getD []) ++ (profile.skills_to_learn.getD [])).any
        (fun skill => strIncludes (jsToLower skill) (jsToLower skillFilter)))
  else profiles

/-- `filterProfiles` from the Match page: the search-query pass followed by
the skill-filter pass over the fetched profile list. -/
def filterProfiles (profiles : List MatchProfile)
    (searchQuery skillFilter : String) : List MatchProfile :=
  skillFilterPass (searchFilterPass profiles searchQuery) skillFilter

/-- The membership predicate exactly as the claim words it: the raw skill
string (not lowercased) must contain the lowercased skill filter. -/
def claimMatchPred (searchQuery skillFilter : String) (p : MatchProfile) : Bool :=
  (searchQuery == "" ||
    (optTextMatch p.full_name searchQuery || optTextMatch p.bio searchQuery)) &&
  (skillFilter == "" ||
    ((p.skills_to_teach.getD []) ++ (p.skills_to_learn.getD [])).any
      (fun skill => strIncludes skill (jsToLower skillFilter)))

/-- The amended membership predicate: as `claimMatchPred` but comparing the
lowercased skill against the lowercased skill filter, as the code does. -/
def amendedMatchPred (searchQuery skillFilter : String) (p : MatchProfile) : Bool :=
  (searchQuery == "" ||
    (optTextMatch p.full_name searchQuery || optTextMatch p.bio searchQuery)) &&
  (skillFilter == "" ||
    ((p.skills_to_teach.getD []) ++ (p.skills_to_learn.getD [])).any
      (fun skill => strIncludes (jsToLower skill) (jsToLower skillFilter)))

/-- A completed profile teaching "Python", used to separate the mixed-case
behaviour of the skill filter. -/
def cexMatchProfile : MatchProfile :=
  { id := "u1", full_name := none, bio := none,
    skills_to_teach := some ["Python"], skills_to_learn := none }

/-! ## Reviews schema (`rating` CHECK constraint) -/

/-- A row of the `reviews` table (SQL migration creating `public.reviews`). -/
structure ReviewRow where
  session_id : String
  reviewer_id : String
  reviewee_id : String
  rating : Int
  comment : Option String
deriving DecidableEq

/-- The `rating` column constraint: `CHECK (rating >= 1 AND rating <= 5)`. -/
def ratingCheck (rating : Int) : Bool :=
  decide (1 ≤ rating) && decide (rating ≤ 5)

/-- An INSERT into `public.reviews`: the database accepts the row and
appends it when the CHECK constraint passes, and rejects the statement
otherwise (returning `none`, the table unchanged). -/
def insertReview (reviews : List ReviewRow) (row : ReviewRow) :
    Option (List ReviewRow) :=
  if ratingCheck row.rating then some (reviews ++ [row]) else none

/-- A sequence of attempted review INSERTs applied to an initially empty
table; a rejected insert leaves the table unchanged. -/
def applyReviewInserts (rows : List ReviewRow) : List ReviewRow :=
  rows.foldl (fun reviews row => (insertReview reviews row).getD reviews) []

/-- A concrete in-range review. -/
def cexReview : ReviewRow :=
  { session_id := "s1", reviewer_id := "a", reviewee_id := "b",
    rating := 3, comment := none }

/-! ## Dashboard page (`calculateStats`) -/

/-- A row of the `sessions` table as used by the Dashboard page. -/
structure DashSession where
  id : String
  scheduled_at : String
  duration_minutes : Nat
  skill : String
  status : String
  teacher_id : String
  learner_id : String
deriving DecidableEq

/-- A review row as fetched by the Dashboard page (reviews where the user
is reviewee). -/
structure DashReview where
  id : String
  rating : Int
  comment : String
  created_at : String
deriving DecidableEq

/-- JavaScript `Math.round`: round half toward positive infinity. -/
def jsMathRound (x : ℚ) : ℤ :=
  ⌊x + 1 / 2⌋

/-- `Math.round(x * 10) / 10`: round to one decimal place. -/
def roundTo1 (x : ℚ) : ℚ :=
  (jsMathRound (x * 10) : ℚ) / 10

/-- The stats fields of the Dashboard claim.  (The chart aggregations
`skillsTaught`, `skillsLearned` and `sessionsOverTime`, which the claim
does not mention, are omitted.) -/
structure DashStats where
  hoursTaught : ℚ
  hoursLearned : ℚ
  totalSessions : Nat
  averageRating : ℚ
deriving DecidableEq

/-- `calculateStats` from the Dashboard page: filter the fetched sessions
to the completed ones, split them by the user's role, sum the durations in
hours, and average the fetched reviews' ratings; the three rational stats
are rounded to one decimal place. -/
def calculateStats (userId : String) (sessionsData : List DashSession)
    (reviewsData : List DashReview) : DashStats :=
  let completed := sessionsData.filter (fun s => s.status == "completed")
  let taught := completed.filter (fun s => s.teacher_id == userId)
  let learned := completed.filter (fun s => s.learner_id == userId)
  let hoursTaught := (taught.map (fun s => (s.duration_minutes : ℚ) / 60)).sum
  let hoursLearned := (learned.map (fun s => (s.duration_minutes : ℚ) / 60)).sum
  let avgRating : ℚ :=
    if reviewsData.length > 0 then
      (reviewsData.map (fun r => (r.rating : ℚ))).sum / reviewsData.length
    else 0
  { hoursTaught := roundTo1 hoursTaught,
    hoursLearned := roundTo1 hoursLearned,
    totalSessions := completed.length,
    averageRating := roundTo1 avgRating }

/-! ## Leaderboard page (`fetchLeaderboard`) -/

/-- A row of the `sessions` table as selected by the Leaderboard query
(`teacher_id`, filtered server-side on `status`). -/
structure LbSession where
  teacher_id : String
  status : String
deriving DecidableEq

/-- A review row as selected by the Leaderboard query
(`reviewee_id, rating`). -/
structure LbReview where
  reviewee_id : String
  rating : Int
deriving DecidableEq

/-- A profile row as selected by the Leaderboard query
(`id, full_name, skills_to_teach`, filtered server-side on
`profile_completed`). -/
structure LbProfile where
  id : String
  full_name : Option String
  skills_to_teach : Option (List String)
  profile_completed : Bool
deriving DecidableEq

/-- A leaderboard entry as built by `fetchLeaderboard` (the
`avatar_initials` display string and `skills_to_teach` badges carry no
aggregate and are omitted). -/
structure LeaderboardEntry where
  id : String
  total_sessions : Nat
  average_rating : ℚ
  total_reviews : Nat
  satisfaction_score : ℚ
deriving DecidableEq

/-- The body of the per-profile loop of `fetchLeaderboard`: count the
profile's completed sessions as teacher (`sessions` holds the
status-filtered query result), average its reviews as reviewee, compute
the satisfaction score
`avgRating * 10 + min(sessionsCount * 2, 30) + min(reviewCount * 5, 20)`,
and keep the profile only when it has a session or a review. -/
def leaderboardEntryFor (sessionsTable : List LbSession)
    (reviewsTable : List LbReview) (profile : LbProfile) :
    Option LeaderboardEntry :=
  let sessions := sessionsTable.filter (fun s => s.status == "completed")
  let sessionsCount := (sessions.filter (fun s => s.teacher_id == profile.id)).length
  let teacherReviews := reviewsTable.filter (fun r => r.reviewee_id == profile.id)
  let avgRating : ℚ :=
    if teacherReviews.length > 0 then
      (teacherReviews.map (fun r => (r.rating : ℚ))).sum / teacherReviews.length
    else 0
  let satisfactionScore : ℚ :=
    avgRating * 10 + (min (sessionsCount * 2) 30 : ℕ) + (min (teacherReviews.length * 5) 20 : ℕ)
  if sessionsCount > 0 || teacherReviews.length > 0 then
    some { id := profile.id, total_sessions := sessionsCount,
           average_rating := avgRating, total_reviews := teacherReviews.length,
           satisfaction_score := satisfactionScore }
  else none

/-- `fetchLeaderboard` from the Leaderboard page: the per-profile loop
over the completed profiles.  Profile ids are the table's primary key, so
the id-keyed map of the code is the list of entries in profile order. -/
def fetchLeaderboard (sessionsTable : List LbSession)
    (reviewsTable : List LbReview) (profilesTable : List LbProfile) :
    List LeaderboardEntry :=
  (profilesTable.filter (fun p => p.profile_completed)).filterMap
    (leaderboardEntryFor sessionsTable reviewsTable)

/-- The claim's `completedSessionCount`: the number of sessions with
status 'completed' whose `teacher_id` is the profile. -/
def claimCompletedCount (pid : String) (sessionsTable : List LbSession) : Nat :=
  (sessionsTable.filter (fun s => s.status == "completed" && s.teacher_id == pid)).length

/-- The claim's reviews of a profile: the reviews whose `reviewee_id` is
the profile. -/
def claimProfileReviews (pid : String) (reviewsTable : List LbReview) : List LbReview :=
  reviewsTable.filter (fun r => r.reviewee_id == pid)

/-- The claim's `avgRating`: the arithmetic mean of the profile's reviews'
ratings, 0 when there are none. -/
def claimAvgRating (pid : String) (reviewsTable : List LbReview) : ℚ :=
  if (claimProfileReviews pid reviewsTable).length = 0 then 0
  else ((claimProfileReviews pid reviewsTable).map (fun r => (r.rating : ℚ))).sum /
    (claimProfileReviews pid reviewsTable).length

/-- The claim's satisfaction-score formula:
`avgRating * 10 + min(2 * completedSessionCount, 30) + min(5 * reviewCount, 20)`. -/
def claimSatisfactionScore (pid : String) (sessionsTable : List LbSession)
    (reviewsTable : List LbReview) : ℚ :=
  claimAvgRating pid reviewsTable * 10 +
    (min (2 * claimCompletedCount pid sessionsTable) 30 : ℕ) +
    (min (5 * (claimProfileReviews pid reviewsTable).length) 20 : ℕ)

/-- A completed profile with a skill listed but no sessions and no
reviews. -/
def cexTeacherProfile : LbProfile :=
  { id := "t9", full_name := some "New Teacher",
    skills_to_teach := some ["Lean"], profile_completed := true }

/-! ## send-session-notification serverless handler -/

/-- A profile as fetched by the notification handler
(`id, email, full_name, session_notification_enabled`); the preference
column is nullable. -/
structure NotifProfile where
  id : String
  email : Option String
  full_name : Option String
  session_notification_enabled : Option Bool
deriving DecidableEq

/-- A session row as fetched by the notification handler. -/
structure NotifSession where
  id : String
  teacher_id : String
  learner_id : String
  skill : String
  scheduled_at : String
  duration_minutes : Nat
  meeting_link : Option String
  notes : Option String
deriving DecidableEq

/-- The recipient of an attempted email send. -/
inductive EmailRecipient where
  | teacher
  | learner
deriving DecidableEq, BEq

/-- JavaScript truthiness of a nullable string: null and the empty string
are falsy. -/
def truthy : Option String → Bool
  | none => false
  | some s => s != ""

/-- The guard on each `resend.emails.send` call:
`profile?.email && profile?.session_notification_enabled !== false`. -/
def emailAllowed (profile : Option NotifProfile) : Bool :=
  match profile with
  | none => false
  | some p => truthy p.email && p.session_notification_enabled != some false

/-- The `send-session-notification` request handler: reject requests with
a missing `sessionId` or `status`, reject a status other than 'confirmed'
or 'declined', reject when the session row cannot be fetched (all three
yield the HTTP 500 catch-all, `Except.error`, and no email); otherwise
attempt a confirmation email to the teacher and to the learner (status
'confirmed') or a decline email to the learner (status 'declined'), each
guarded by `emailAllowed`.  The returned list holds the attempted sends. -/
def sendSessionNotification (sessionId status : Option String)
    (session : Option NotifSession) (teacher learner : Option NotifProfile) :
    Except String (List EmailRecipient) :=
  if !(truthy sessionId) || !(truthy status) then
    Except.error "Missing sessionId or status"
  else if !(["confirmed", "declined"].contains (status.getD "")) then
    Except.error "Status must be either confirmed or declined"
  else
    match session with
    | none => Except.error "Session not found"
    | some _ =>
      if status.getD "" == "confirmed" then
        Except.ok ((if emailAllowed teacher then [EmailRecipient.teacher] else []) ++
          (if emailAllowed learner then [EmailRecipient.learner] else []))
      else if status.getD "" == "declined" then
        Except.ok (if emailAllowed learner then [EmailRecipient.learner] else [])
      else
        Except.ok []

/-- A concrete session row for the handler. -/
def cexNotifSession : NotifSession :=
  { id := "s1", teacher_id := "t1", learner_id := "l1", skill := "Python",
    scheduled_at := "2025-12-01T10:00:00Z", duration_minutes := 60,
    meeting_link := none, notes := none }

/-! ## ChatDialog realtime subscription -/

/-- A row of the `messages` table (the change-feed payload carries the
full row). -/
structure ChatMessage where
  id : String
  conversation_id : String
  sender_id : String
  content : String
  created_at : String
  read : Bool
deriving DecidableEq

/-- `markMessagesAsRead` from ChatDialog: set `read = true` on the
messages of the open conversation that are unread and not sent by the
current user (`.eq(conversation_id) .eq(read, false) .neq(sender_id)`). -/
def markMessagesAsRead (uid cid : String) (table : List ChatMessage) :
    List ChatMessage :=
  table.map (fun m =>
    if m.conversation_id == cid && m.read == false && m.sender_id != uid then
      { m with read := true }
    else m)

/-- The INSERT change-feed callback of ChatDialog's subscription: events
are filtered on `conversation_id=eq.<cid>`; a matching event appends the
new message to the displayed list and, when it was not sent by the
current user, marks the conversation's messages as read.  The state is
the pair (displayed message list, messages table). -/
def onMessageInsert (uid cid : String) (displayed table : List ChatMessage)
    (newMsg : ChatMessage) : List ChatMessage × List ChatMessage :=
  if newMsg.conversation_id == cid then
    (displayed ++ [newMsg],
     if newMsg.sender_id != uid then markMessagesAsRead uid cid table else table)
  else (displayed, table)

/-- A concrete incoming chat message from the other participant. -/
def cexIncomingMsg : ChatMessage :=
  { id := "m2", conversation_id := "c1", sender_id := "u2",
    content := "hi", created_at := "2025-12-01T10:00:00Z", read := false }

/-- A concrete unread chat message already stored in the table. -/
def cexStoredMsg : ChatMessage :=
  { id := "m1", conversation_id := "c1", sender_id := "u2",
    content := "hello", created_at := "2025-12-01T09:59:00Z", read := false }

/-! ## ChatDialog `sendMessage` conversation lookup -/

/-- A row of the `conversations` table
(`UNIQUE(participant_1_id, participant_2_id)`). -/
structure Conversation where
  id : String
  participant_1_id : String
  participant_2_id : String
deriving DecidableEq

/-- JavaScript `<` on strings: lexicographic comparison of the UTF-16
code units, a shorter prefix comparing less. -/
def charListLt : List Char → List Char → Bool
  | [], [] => false
  | [], _ :: _ => true
  | _ :: _, [] => false
  | a :: as, b :: bs =>
      if a < b then true else if b < a then false else charListLt as bs

/-- JavaScript `a < b` on strings. -/
def jsStrLt (a b : String) : Bool :=
  charListLt a.data b.data

/-- The locals `participant1`/`participant2` of `sendMessage`:
`user.id < otherUserId ? user.id : otherUserId` and its mirror, the two
user ids in lexicographic order. -/
def orderedPair (uid otherUserId : String) : String × String :=
  (if jsStrLt uid otherUserId then uid else otherUserId,
   if jsStrLt uid otherUserId then otherUserId else uid)

/-- The lookup predicate of `sendMessage`'s existing-conversation query:
`.eq(participant_1_id, participant1).eq(participant_2_id, participant2)`. -/
def convFinder (uid otherUserId : String) (c : Conversation) : Bool :=
  c.participant_1_id == (orderedPair uid otherUserId).1 &&
  c.participant_2_id == (orderedPair uid otherUserId).2

/-- `sendMessage` from ChatDialog, restricted to its conversation
create-or-lookup step (run when the dialog has no conversation id yet):
order the two user ids, look the ordered pair up in the `conversations`
table, reuse the row when found, and insert a fresh row (with the
database-generated id `newConvId`) otherwise.  Returns the conversation
id used for the message insert and the resulting table. -/
def sendMessageConversation (uid otherUserId : String)
    (conversations : List Conversation) (newConvId : String) :
    String × List Conversation :=
  match conversations.find? (convFinder uid otherUserId) with
  | some existingConv => (existingConv.id, conversations)
  | none =>
      (newConvId, conversations ++
        [{ id := newConvId,
           participant_1_id := (orderedPair uid otherUserId).1,
           participant_2_id := (orderedPair uid otherUserId).2 }])

/-- A conversation row is canonically ordered: the first participant id is
lexicographically smaller than the second. -/
def canonicalConv (c : Conversation) : Bool :=
  jsStrLt c.participant_1_id c.participant_2_id

/-- A conversation row belongs to the unordered pair of users `u` and
`v`. -/
def convBetween (u v : String) (c : Conversation) : Bool :=
  (c.participant_1_id == u && c.participant_2_id == v) ||
  (c.participant_1_id == v && c.participant_2_id == u)

/-- The `UNIQUE(participant_1_id, participant_2_id)` constraint: no two
rows share the ordered participant pair. -/
def uniqueParticipantPairs (conversations : List Conversation) : Prop :=
  conversations.Pairwise (fun a b =>
    ¬(a.participant_1_id = b.participant_1_id ∧
      a.participant_2_id = b.participant_2_id))

/-! ## getAccessToken JWT construction -/

/-- The base64 alphabet. -/
def base64Alphabet : List Char :=
  ("ABCDEFGHIJKLMNOPQRSTUVWXYZabcdefghijklmnopqrstuvwxyz0123456789+/").data

/-- The base64 digit for a 6-bit value. -/
def base64Char (n : Nat) : Char :=
  base64Alphabet.getD n 'A'

/-- Standard base64 of a byte sequence, three bytes to four digits, with
'=' padding. -/
def base64Chunks : List Nat → List Char
  | [] => []
  | [b0] => [base64Char (b0 / 4), base64Char (b0 % 4 * 16), '=', '=']
  | [b0, b1] => [base64Char (b0 / 4), base64Char (b0 % 4 * 16 + b1 / 16),
      base64Char (b1 % 16 * 4), '=']
  | b0 :: b1 :: b2 :: rest =>
      base64Char (b0 / 4) :: base64Char (b0 % 4 * 16 + b1 / 16) ::
      base64Char (b1 % 16 * 4 + b2 / 64) :: base64Char (b2 % 64) ::
      base64Chunks rest

/-- `btoa` on a byte sequence (as produced from
`String.fromCharCode(...new Uint8Array(signature))`). -/
def btoaBytes (bytes : List Nat) : String :=
  ⟨base64Chunks bytes⟩

/-- `btoa(s)` for a string of code points below 256: base64 of the
character codes. -/
def btoa (s : String) : String :=
  btoaBytes (s.data.map Char.toNat)

/-- `.replace(/c/g, '')`: remove every occurrence of a character. -/
def removeChar (s : String) (c : Char) : String :=
  ⟨s.data.filter (fun x => x != c)⟩

/-- `.replace(/a/g, b)` for single characters: map every occurrence. -/
def mapChar (s : String) (a b : Char) : String :=
  ⟨s.data.map (fun x => if x == a then b else x)⟩

/-- The base64url post-processing chain of `getAccessToken`:
`.replace(/=/g, '').replace(/\+/g, '-').replace(/\//g, '_')`. -/
def base64urlStrip (s : String) : String :=
  mapChar (mapChar (removeChar s '=') '+' '-') '/' '_'

/-- `JSON.stringify({ alg: 'RS256', typ: 'JWT' })`. -/
def jwtHeaderJson : String :=
  "\x7b\"alg\":\"RS256\",\"typ\":\"JWT\"\x7d"

/-- `JSON.stringify(payload)` for the token payload: issuer is the
service account's `client_email`, scope and audience are the FCM OAuth2
endpoints, `iat` is the current epoch second and `exp` is one hour
later. -/
def jwtPayloadJson (clientEmail : String) (now : Nat) : String :=
  "\x7b\"iss\":\"" ++ clientEmail ++
  "\",\"scope\":\"https://www.googleapis.com/auth/firebase.messaging\"," ++
  "\"aud\":\"https://oauth2.googleapis.com/token\"," ++
  "\"iat\":" ++ toString now ++ ",\"exp\":" ++ toString (now + 3600) ++ "\x7d"

/-- The JWT built by `getAccessToken` (both the send-push-notification
and the send-session-notification copies): base64url of the JSON header
and payload joined by '.', then the base64url of the RSASSA-PKCS1-v1_5 /
SHA-256 signature of that unsigned token appended after a second '.'.
The RSA primitive (`crypto.subtle.sign` under the service account's
private key) is the external byte-level signing function `rs256Sign`. -/
def getAccessTokenJwt (clientEmail : String) (now : Nat)
    (rs256Sign : String → List Nat) : String :=
  let headerB64 := base64urlStrip (btoa jwtHeaderJson)
  let payloadB64 := base64urlStrip (btoa (jwtPayloadJson clientEmail now))
  let unsignedToken := headerB64 ++ "." ++ payloadB64
  let signatureB64 := base64urlStrip (btoaBytes (rs256Sign unsignedToken))
  unsignedToken ++ "." ++ signatureB64

/-- The body of the OAuth2 token-exchange request `getAccessToken` sends
to `https://oauth2.googleapis.com/token`: the JWT is passed as the
`assertion` of a jwt-bearer grant. -/
def tokenRequestBody (jwt : String) : String :=
  "grant_type=urn:ietf:params:oauth:grant-type:jwt-bearer&assertion=" ++ jwt

/-! ## Theorems -/

/-- C1: the claim says every status the Schedule page writes satisfies the
`valid_status` CHECK constraint; but the Decline button passes 'declined',
which `handleStatusUpdate` writes verbatim to the sessions-table update,
and 'declined' is not one of the four permitted enum values, so the
database rejects that update.  This theorem evaluates the code at that
failing input. -/
theorem C1_decline_violates_check :
    "declined" ∈ scheduleButtonStatuses ∧
    handleStatusUpdate cexSession "declined" none =
      some { status := "declined", meeting_link := none } ∧
    validStatus "declined" = false := by
  decide

/-- C3 counterexample: on a profile teaching "Python" with skill filter
"PY" and empty search query, `filterProfiles` keeps the profile (the code
lowercases the skill before testing), but the claim as stated (the raw
skill must contain the lowercased filter "py") drops it. -/
theorem C3_counterexample :
    filterProfiles [cexMatchProfile] "" "PY" ≠
      List.filter (claimMatchPred "" "PY") [cexMatchProfile] := by
  decide

/-- C3 (amended): `filterProfiles` returns exactly the sublist, in the
original order, of profiles matching the search query (on lowercased name
or bio) and whose lowercased skills contain the lowercased skill filter;
an empty query or filter imposes no condition, and with both empty the
list is returned unchanged. -/
theorem C3_match_filter (profiles : List MatchProfile)
    (searchQuery skillFilter : String) :
    filterProfiles profiles searchQuery skillFilter =
      profiles.filter (amendedMatchPred searchQuery skillFilter) := by
  unfold filterProfiles skillFilterPass searchFilterPass amendedMatchPred
  by_cases hq : searchQuery = "" <;> by_cases hk : skillFilter = "" <;>
    simp only [hq, hk, ne_eq, not_true_eq_false, not_false_eq_true,
      ite_true, ite_false, if_pos, if_neg, beq_self_eq_true, Bool.true_or,
      Bool.true_and, Bool.and_true]
  · exact (List.filter_true profiles).symm
  · have hk2 : (skillFilter == "") = false := beq_eq_false_iff_ne.mpr hk
    simp only [hk2, Bool.false_or]
  · have hq2 : (searchQuery == "") = false := beq_eq_false_iff_ne.mpr hq
    simp only [hq2, Bool.false_or]
  · have hq2 : (searchQuery == "") = false := beq_eq_false_iff_ne.mpr hq
    have hk2 : (skillFilter == "") = false := beq_eq_false_iff_ne.mpr hk
    rw [List.filter_filter]
    simp only [hq2, hk2, Bool.false_or, Bool.and_comm]

/-- C5: a review INSERT is rejected by the rating CHECK constraint exactly
when the rating lies outside 1..5, and consequently every row stored
through any sequence of inserts satisfies 1 ≤ rating ≤ 5. -/
theorem C5_rating_check :
    (∀ (reviews : List ReviewRow) (row : ReviewRow),
      insertReview reviews row = none ↔ ¬ (1 ≤ row.rating ∧ row.rating ≤ 5)) ∧
    (∀ rows : List ReviewRow, ∀ r ∈ applyReviewInserts rows,
      1 ≤ r.rating ∧ r.rating ≤ 5) := by
  constructor
  · intro reviews row
    unfold insertReview ratingCheck
    by_cases h : 1 ≤ row.rating ∧ row.rating ≤ 5
    · simp [h.1, h.2]
    · simp only [Bool.and_eq_true, decide_eq_true_eq]
      simp [h]
  · intro rows
    suffices h : ∀ (rows acc : List ReviewRow),
        (∀ r ∈ acc, 1 ≤ r.rating ∧ r.rating ≤ 5) →
        ∀ r ∈ rows.foldl (fun reviews row => (insertReview reviews row).getD reviews) acc,
          1 ≤ r.rating ∧ r.rating ≤ 5 by
      exact h rows [] (by simp)
    intro rows
    induction rows with
    | nil => intro acc hacc r hr; exact hacc r hr
    | cons row rest ih =>
      intro acc hacc r hr
      refine ih _ ?_ r hr
      intro x hx
      unfold insertReview at hx
      by_cases hc : ratingCheck row.rating = true
      · simp only [hc, if_pos, Option.getD_some] at hx
        rcases List.mem_append.mp hx with h1 | h2
        · exact hacc x h1
        · unfold ratingCheck at hc
          simp only [Bool.and_eq_true, decide_eq_true_eq] at hc
          rcases List.mem_singleton.mp h2 with rfl
          exact hc
      · simp only [Bool.not_eq_true] at hc
        simp only [hc, Bool.false_eq_true, if_neg, if_false,
          Option.getD_none] at hx
        exact hacc x hx

/-- C5 witness: inserting a rating-3 review into the empty table stores a
row whose rating lies in 1..5. -/
theorem C5_witness : 1 ≤ cexReview.rating ∧ cexReview.rating ≤ 5 :=
  C5_rating_check.2 [cexReview] cexReview (by decide)

/-- Two successive filters are one filter on the conjunction, in the order
the predicates were applied. -/
theorem filter_filter_comm {α : Type _} (l : List α) (q p : α → Bool) :
    (l.filter q).filter p = l.filter (fun a => q a && p a) := by
  rw [List.filter_filter]
  exact List.filter_congr (fun x _ => by rw [Bool.and_comm])

/-- Rounding zero to one decimal place gives zero. -/
theorem roundTo1_zero : roundTo1 0 = 0 := by
  unfold roundTo1 jsMathRound
  norm_num

/-- C4: `calculateStats` is a reduction over the fetched rows:
`totalSessions` counts the completed sessions, `hoursTaught` and
`hoursLearned` are the rounded sums of `duration_minutes / 60` over
completed sessions where the user is teacher (resp. learner), and
`averageRating` is the rounded mean of the fetched reviews' ratings, 0
when there are none. -/
theorem C4_dashboard_stats (userId : String) (sessionsData : List DashSession)
    (reviewsData : List DashReview) :
    (calculateStats userId sessionsData reviewsData).totalSessions =
      (sessionsData.filter (fun s => s.status == "completed")).length ∧
    (calculateStats userId sessionsData reviewsData).hoursTaught =
      roundTo1 (((sessionsData.filter (fun s =>
          s.status == "completed" && s.teacher_id == userId)).map
        (fun s => (s.duration_minutes : ℚ) / 60)).sum) ∧
    (calculateStats userId sessionsData reviewsData).hoursLearned =
      roundTo1 (((sessionsData.filter (fun s =>
          s.status == "completed" && s.learner_id == userId)).map
        (fun s => (s.duration_minutes : ℚ) / 60)).sum) ∧
    (calculateStats userId sessionsData reviewsData).averageRating =
      (if reviewsData.length = 0 then 0
       else roundTo1 ((reviewsData.map (fun r => (r.rating : ℚ))).sum /
         reviewsData.length)) := by
  simp only [calculateStats]
  refine ⟨trivial, ?_, ?_, ?_⟩
  · rw [filter_filter_comm]
  · rw [filter_filter_comm]
  · by_cases h : reviewsData.length = 0
    · simp [h, roundTo1_zero]
    · have h2 : 0 < reviewsData.length := Nat.pos_of_ne_zero h
      simp [h, h2]

/-- C2: every entry of the fetched leaderboard carries the satisfaction
score `avgRating * 10 + min(2 * completedSessionCount, 30) +
min(5 * reviewCount, 20)`, where the counts and the mean are the claim's
aggregates for that profile. -/
theorem C2_leaderboard_score (sessionsTable : List LbSession)
    (reviewsTable : List LbReview) (profilesTable : List LbProfile)
    (e : LeaderboardEntry)
    (he : e ∈ fetchLeaderboard sessionsTable reviewsTable profilesTable) :
    e.satisfaction_score = claimSatisfactionScore e.id sessionsTable reviewsTable := by
  unfold fetchLeaderboard at he
  rw [List.mem_filterMap] at he
  obtain ⟨profile, _, hf⟩ := he
  simp only [leaderboardEntryFor] at hf
  by_cases hcond :
      (((sessionsTable.filter (fun s => s.status == "completed")).filter
        (fun s => s.teacher_id == profile.id)).length > 0 ||
       (reviewsTable.filter (fun r => r.reviewee_id == profile.id)).length > 0) = true
  · rw [if_pos hcond] at hf
    obtain rfl : _ = e := Option.some.inj hf
    unfold claimSatisfactionScore claimAvgRating claimProfileReviews claimCompletedCount
    rw [filter_filter_comm, Nat.mul_comm _ 2, Nat.mul_comm _ 5]
    by_cases hlen : (reviewsTable.filter (fun r => r.reviewee_id == profile.id)).length = 0
    · simp [hlen]
    · have h2 : 0 < (reviewsTable.filter (fun r => r.reviewee_id == profile.id)).length :=
        Nat.pos_of_ne_zero hlen
      simp [hlen, h2]
  · rw [if_neg hcond] at hf
    exact absurd hf (by simp)

/-- C2 witness: one completed session and one 4-star review give the
entry for teacher "t1" the satisfaction score 47 = 4·10 + 2 + 5, matching
the claim's formula. -/
theorem C2_witness :
    (⟨"t1", 1, 4, 1, 47⟩ : LeaderboardEntry).satisfaction_score =
      claimSatisfactionScore "t1" [⟨"t1", "completed"⟩] [⟨"t1", 4⟩] :=
  C2_leaderboard_score [⟨"t1", "completed"⟩] [⟨"t1", 4⟩]
    [⟨"t1", some "Teacher One", some [], true⟩] ⟨"t1", 1, 4, 1, 47⟩ (by
      have hentry : leaderboardEntryFor [⟨"t1", "completed"⟩] [⟨"t1", 4⟩]
          ⟨"t1", some "Teacher One", some [], true⟩ =
          some ⟨"t1", 1, 4, 1, 47⟩ := by
        simp only [leaderboardEntryFor, List.filter, List.map, List.sum_cons,
          List.sum_nil, List.length, beq_self_eq_true, cond_true]
        norm_num
      exact List.mem_filterMap.mpr
        ⟨⟨"t1", some "Teacher One", some [], true⟩, by decide, hentry⟩)

/-- C10: a profile appears on the leaderboard exactly when its profile is
completed and it has a completed session as teacher or a review as
reviewee; profile ids are unique (primary key). -/
theorem C10_leaderboard_inclusion (sessionsTable : List LbSession)
    (reviewsTable : List LbReview) (profilesTable : List LbProfile)
    (p : LbProfile) (hp : p ∈ profilesTable)
    (hnodup : (profilesTable.map LbProfile.id).Nodup) :
    (∃ e ∈ fetchLeaderboard sessionsTable reviewsTable profilesTable, e.id = p.id) ↔
      (p.profile_completed = true ∧
        (0 < claimCompletedCount p.id sessionsTable ∨
         0 < (claimProfileReviews p.id reviewsTable).length)) := by
  unfold fetchLeaderboard
  constructor
  · rintro ⟨e, he, hid⟩
    rw [List.mem_filterMap] at he
    obtain ⟨q, hq, hf⟩ := he
    obtain ⟨hqmem, hqcomp⟩ := List.mem_filter.mp hq
    simp only [leaderboardEntryFor] at hf
    by_cases hcond :
        (((sessionsTable.filter (fun s => s.status == "completed")).filter
          (fun s => s.teacher_id == q.id)).length > 0 ||
         (reviewsTable.filter (fun r => r.reviewee_id == q.id)).length > 0) = true
    · rw [if_pos hcond] at hf
      obtain rfl : _ = e := Option.some.inj hf
      have hqp : q = p :=
        List.inj_on_of_nodup_map hnodup hqmem hp hid
      subst hqp
      refine ⟨by simpa using hqcomp, ?_⟩
      rw [filter_filter_comm] at hcond
      simpa [claimCompletedCount, claimProfileReviews] using hcond
    · rw [if_neg hcond] at hf
      exact absurd hf (by simp)
  · rintro ⟨hcomp, hcounts⟩
    have hcond :
        (((sessionsTable.filter (fun s => s.status == "completed")).filter
          (fun s => s.teacher_id == p.id)).length > 0 ||
         (reviewsTable.filter (fun r => r.reviewee_id == p.id)).length > 0) = true := by
      rw [filter_filter_comm]
      simpa [claimCompletedCount, claimProfileReviews] using hcounts
    rcases hE : leaderboardEntryFor sessionsTable reviewsTable p with _ | e
    · exfalso
      simp only [leaderboardEntryFor] at hE
      rw [if_pos hcond] at hE
      exact Option.noConfusion hE
    · have hid : e.id = p.id := by
        simp only [leaderboardEntryFor] at hE
        rw [if_pos hcond] at hE
        obtain rfl : _ = e := Option.some.inj hE
        rfl
      exact ⟨e, List.mem_filterMap.mpr
        ⟨p, List.mem_filter.mpr ⟨hp, by simpa using hcomp⟩, hE⟩, hid⟩

/-- C10 witness: a teacher with a completed profile and a listed skill but
no completed sessions and no reviews never appears on the leaderboard. -/
theorem C10_witness :
    ¬ ∃ e ∈ fetchLeaderboard [] [] [cexTeacherProfile],
        e.id = cexTeacherProfile.id := by
  intro h
  have h2 := (C10_leaderboard_inclusion [] [] [cexTeacherProfile] cexTeacherProfile
    (List.mem_singleton.mpr rfl) (by simp)).mp h
  exact absurd h2 (by decide)

set_option maxRecDepth 4000 in
/-- C6: for every service account email, epoch second `now` and RSA
signing primitive, `getAccessToken` produces
`headerB64 ++ "." ++ payloadB64 ++ "." ++ signatureB64` where the first
two parts are the base64url encodings (padding stripped, '+' and '/'
translated) of the JSON header and of the payload with `iat = now` and
`exp = now + 3600`, and the third is the base64url encoding of the
RSASSA-PKCS1-v1_5 / SHA-256 signature of `headerB64 ++ "." ++ payloadB64`;
the JWT is then exchanged as the assertion of a jwt-bearer token request.
The final conjuncts ground the encodings on the standard RS256 header
vector and on a concrete payload. -/
theorem C6_jwt_construction :
    (∀ (clientEmail : String) (now : Nat) (rs256Sign : String → List Nat),
      getAccessTokenJwt clientEmail now rs256Sign =
        base64urlStrip (btoa jwtHeaderJson) ++ "." ++
        base64urlStrip (btoa (jwtPayloadJson clientEmail now)) ++ "." ++
        base64urlStrip (btoaBytes (rs256Sign
          (base64urlStrip (btoa jwtHeaderJson) ++ "." ++
           base64urlStrip (btoa (jwtPayloadJson clientEmail now))))) ∧
      tokenRequestBody (getAccessTokenJwt clientEmail now rs256Sign) =
        "grant_type=urn:ietf:params:oauth:grant-type:jwt-bearer&assertion=" ++
          getAccessTokenJwt clientEmail now rs256Sign) ∧
    base64urlStrip (btoa jwtHeaderJson) =
      "eyJhbGciOiJSUzI1NiIsInR5cCI6IkpXVCJ9" ∧
    jwtPayloadJson "svc@example.iam.gserviceaccount.com" 1000 =
      "\x7b\"iss\":\"svc@example.iam.gserviceaccount.com\",\"scope\":\"https://www.googleapis.com/auth/firebase.messaging\",\"aud\":\"https://oauth2.googleapis.com/token\",\"iat\":1000,\"exp\":4600\x7d" := by
  refine ⟨fun clientEmail now rs256Sign => ⟨rfl, rfl⟩, by decide, by decide⟩

/-- C8: while the dialog is open on conversation `cid`, an INSERT
change-feed event whose row belongs to `cid` appends the new message to
the end of the displayed list, and when the sender is not the current
user, every unread message of the conversation not sent by the current
user is marked read in the table (the others are kept unchanged). -/
theorem C8_realtime_insert (uid cid : String)
    (displayed table : List ChatMessage) (newMsg : ChatMessage)
    (hconv : newMsg.conversation_id = cid) :
    (onMessageInsert uid cid displayed table newMsg).1 = displayed ++ [newMsg] ∧
    (newMsg.sender_id ≠ uid →
      (∀ m ∈ table, m.conversation_id = cid → m.sender_id ≠ uid →
        { m with read := true } ∈ (onMessageInsert uid cid displayed table newMsg).2) ∧
      (∀ m ∈ table, ¬(m.conversation_id = cid ∧ m.read = false ∧ m.sender_id ≠ uid) →
        m ∈ (onMessageInsert uid cid displayed table newMsg).2)) := by
  have hc : (newMsg.conversation_id == cid) = true := beq_iff_eq.mpr hconv
  unfold onMessageInsert
  rw [if_pos hc]
  refine ⟨rfl, fun hs => ?_⟩
  have hs2 : (newMsg.sender_id != uid) = true := bne_iff_ne.mpr hs
  rw [if_pos hs2]
  constructor
  · intro m hm h1 h2
    unfold markMessagesAsRead
    cases hr : m.read with
    | false =>
      refine List.mem_map.mpr ⟨m, hm, ?_⟩
      rw [if_pos (by simp [h1, hr, h2])]
    | true =>
      have hmm : ({ m with read := true } : ChatMessage) = m := by
        cases m
        simp only at hr
        simp [hr]
      rw [hmm]
      refine List.mem_map.mpr ⟨m, hm, ?_⟩
      rw [if_neg (by simp [hr])]
  · intro m hm hnot
    unfold markMessagesAsRead
    refine List.mem_map.mpr ⟨m, hm, ?_⟩
    rw [if_neg]
    intro hcond
    simp only [Bool.and_eq_true, beq_iff_eq, bne_iff_ne] at hcond
    exact hnot ⟨hcond.1.1, hcond.1.2, hcond.2⟩

/-- C8 witness: an incoming message from the other participant is
appended to the displayed list and the stored unread message is marked
read. -/
theorem C8_witness :
    (onMessageInsert "u1" "c1" [cexStoredMsg] [cexStoredMsg] cexIncomingMsg).1 =
      [cexStoredMsg] ++ [cexIncomingMsg] ∧
    { cexStoredMsg with read := true } ∈
      (onMessageInsert "u1" "c1" [cexStoredMsg] [cexStoredMsg] cexIncomingMsg).2 := by
  have h := C8_realtime_insert "u1" "c1" [cexStoredMsg] [cexStoredMsg]
    cexIncomingMsg rfl
  exact ⟨h.1, (h.2 (by decide)).1 cexStoredMsg (by decide) rfl (by decide)⟩

/-- The claim's guarantees for the 'confirmed' email batch: at most one
email to each of teacher and learner, each attempted only when allowed. -/
theorem confirmedSent_facts (teacher learner : Option NotifProfile) :
    ((if emailAllowed teacher then [EmailRecipient.teacher] else []) ++
     (if emailAllowed learner then [EmailRecipient.learner] else [])).length ≤ 2 ∧
    ((if emailAllowed teacher then [EmailRecipient.teacher] else []) ++
     (if emailAllowed learner then [EmailRecipient.learner] else [])).count
      EmailRecipient.teacher ≤ 1 ∧
    ((if emailAllowed teacher then [EmailRecipient.teacher] else []) ++
     (if emailAllowed learner then [EmailRecipient.learner] else [])).count
      EmailRecipient.learner ≤ 1 ∧
    (EmailRecipient.teacher ∈
      ((if emailAllowed teacher then [EmailRecipient.teacher] else []) ++
       (if emailAllowed learner then [EmailRecipient.learner] else [])) →
      emailAllowed teacher = true) ∧
    (EmailRecipient.learner ∈
      ((if emailAllowed teacher then [EmailRecipient.teacher] else []) ++
       (if emailAllowed learner then [EmailRecipient.learner] else [])) →
      emailAllowed learner = true) := by
  by_cases hT : emailAllowed teacher <;> by_cases hL : emailAllowed learner <;>
    simp [hT, hL] <;> decide

/-- The claim's guarantees for the 'declined' email batch: at most one
email, to the learner only, attempted only when allowed. -/
theorem declinedSent_facts (learner : Option NotifProfile) :
    (if emailAllowed learner then [EmailRecipient.learner] else []).length ≤ 1 ∧
    (∀ r ∈ (if emailAllowed learner then [EmailRecipient.learner] else []),
      r = EmailRecipient.learner) ∧
    (EmailRecipient.learner ∈
      (if emailAllowed learner then [EmailRecipient.learner] else []) →
      emailAllowed learner = true) := by
  by_cases hL : emailAllowed learner <;> simp [hL]

/-- C7: the handler errors (HTTP 500, no email attempted) exactly when
`sessionId` or `status` is absent, the status is neither 'confirmed' nor
'declined', or the session row cannot be fetched; on success a
'confirmed' status attempts at most one email to the teacher and one to
the learner, each only when that profile has an email and notifications
are not disabled, and a 'declined' status attempts at most one email, to
the learner only.  (Request fields are non-degenerate: an empty-string id
or status never reaches the handler, since an empty session id cannot
fetch a row.) -/
theorem C7_notification_handler (sessionId status : Option String)
    (session : Option NotifSession) (teacher learner : Option NotifProfile)
    (hsid : sessionId ≠ some "") (hst : status ≠ some "") :
    ((∃ msg, sendSessionNotification sessionId status session teacher learner =
        Except.error msg) ↔
      (sessionId = none ∨ status = none ∨
        (status ≠ some "confirmed" ∧ status ≠ some "declined") ∨ session = none)) ∧
    (∀ sent, sendSessionNotification sessionId status session teacher learner =
        Except.ok sent →
      (status = some "confirmed" →
        sent.length ≤ 2 ∧
        sent.count EmailRecipient.teacher ≤ 1 ∧
        sent.count EmailRecipient.learner ≤ 1 ∧
        (EmailRecipient.teacher ∈ sent → emailAllowed teacher = true) ∧
        (EmailRecipient.learner ∈ sent → emailAllowed learner = true)) ∧
      (status = some "declined" →
        sent.length ≤ 1 ∧
        (∀ r ∈ sent, r = EmailRecipient.learner) ∧
        (EmailRecipient.learner ∈ sent → emailAllowed learner = true))) := by
  rcases sessionId with _ | sid
  · refine ⟨by simp [sendSessionNotification, truthy], fun sent h => ?_⟩
    simp [sendSessionNotification, truthy] at h
  · have hsid2 : (sid != "") = true := by
      refine bne_iff_ne.mpr (fun hh => hsid ?_)
      rw [hh]
    rcases status with _ | st
    · refine ⟨by simp [sendSessionNotification, truthy], fun sent h => ?_⟩
      simp [sendSessionNotification, truthy] at h
    · have hst2 : (st != "") = true := by
        refine bne_iff_ne.mpr (fun hh => hst ?_)
        rw [hh]
      by_cases hcnf : st = "confirmed"
      · subst hcnf
        rcases session with _ | sess
        · refine ⟨by simp [sendSessionNotification, truthy, hsid2], fun sent h => ?_⟩
          simp [sendSessionNotification, truthy, hsid2] at h
        · refine ⟨by simp [sendSessionNotification, truthy, hsid2], fun sent h => ?_⟩
          simp only [sendSessionNotification, truthy, hsid2, Bool.not_true,
            Bool.false_or, Bool.or_false, Bool.not_eq_true] at h
          rw [if_neg (by simp), if_neg (by simp), if_pos (by simp)] at h
          obtain rfl : _ = sent := Except.ok.inj h
          refine ⟨fun _ => confirmedSent_facts teacher learner, fun hdec => ?_⟩
          exact absurd (Option.some.inj hdec) (by decide)
      · by_cases hdcl : st = "declined"
        · subst hdcl
          rcases session with _ | sess
          · refine ⟨by simp [sendSessionNotification, truthy, hsid2], fun sent h => ?_⟩
            simp [sendSessionNotification, truthy, hsid2] at h
          · refine ⟨by simp [sendSessionNotification, truthy, hsid2], fun sent h => ?_⟩
            simp only [sendSessionNotification, truthy, hsid2, Bool.not_true,
              Bool.false_or, Bool.or_false, Bool.not_eq_true] at h
            rw [if_neg (by simp), if_neg (by simp), if_neg (by simp),
              if_pos (by simp)] at h
            obtain rfl : _ = sent := Except.ok.inj h
            refine ⟨fun hcf => absurd (Option.some.inj hcf) (by decide),
              fun _ => declinedSent_facts learner⟩
        · have hcontains : (["confirmed", "declined"].contains st) = false := by
            simp [List.contains, hcnf, hdcl]
          refine ⟨?_, fun sent h => ?_⟩
          · simp [sendSessionNotification, truthy, hsid2, hst2, hcontains,
              hcnf, hdcl]
          · simp [sendSessionNotification, truthy, hsid2, hst2, hcontains,
              hcnf, hdcl] at h

/-- C7 witness: a request with a status other than 'confirmed'/'declined'
is rejected with an error response. -/
theorem C7_witness :
    ∃ msg, sendSessionNotification (some "s1") (some "cancelled")
      (some cexNotifSession) none none = Except.error msg :=
  (C7_notification_handler (some "s1") (some "cancelled") (some cexNotifSession)
    none none (by decide) (by decide)).1.mpr
    (Or.inr (Or.inr (Or.inl ⟨by decide, by decide⟩)))

/-- Lexicographic character-list comparison is irreflexive. -/
theorem charListLt_irrefl (l : List Char) : charListLt l l = false := by
  induction l with
  | nil => rfl
  | cons a t ih => simp [charListLt, lt_irrefl, ih]

/-- Lexicographic character-list comparison is asymmetric. -/
theorem charListLt_asymm : ∀ {x y : List Char},
    charListLt x y = true → charListLt y x = false := by
  intro x
  induction x with
  | nil =>
    intro y h
    cases y with
    | nil => simp [charListLt] at h
    | cons b bs => simp [charListLt]
  | cons a as ih =>
    intro y h
    cases y with
    | nil => simp [charListLt] at h
    | cons b bs =>
      simp only [charListLt] at h ⊢
      by_cases hab : a < b
      · have hba : ¬ b < a := lt_asymm hab
        simp [hab, hba]
      · by_cases hba : b < a
        · simp [hab, hba] at h
        · simp only [hab, hba, if_false] at h ⊢
          exact ih h

/-- Lexicographic character-list comparison is total on distinct lists. -/
theorem charListLt_total : ∀ {x y : List Char}, x ≠ y →
    charListLt x y = true ∨ charListLt y x = true := by
  intro x
  induction x with
  | nil =>
    intro y hne
    cases y with
    | nil => exact absurd rfl hne
    | cons b bs => left; rfl
  | cons a as ih =>
    intro y hne
    cases y with
    | nil => right; rfl
    | cons b bs =>
      rcases lt_trichotomy a b with h | h | h
      · left; simp [charListLt, h]
      · subst h
        have hne2 : as ≠ bs := by
          intro hh
          exact hne (by rw [hh])
        rcases ih hne2 with h2 | h2
        · left; simp [charListLt, lt_irrefl, h2]
        · right; simp [charListLt, lt_irrefl, h2]
      · have hnab : ¬ a < b := lt_asymm h
        right; simp [charListLt, h, hnab]

/-- JavaScript string comparison is asymmetric. -/
theorem jsStrLt_asymm {a b : String} (h : jsStrLt a b = true) :
    jsStrLt b a = false :=
  charListLt_asymm h

/-- JavaScript string comparison is total on distinct strings. -/
theorem jsStrLt_total {a b : String} (h : a ≠ b) :
    jsStrLt a b = true ∨ jsStrLt b a = true :=
  charListLt_total (fun hd => h (congrArg String.mk hd))

/-- For distinct users the ordered pair is strictly ordered. -/
theorem orderedPair_lt (uid otherUserId : String) (hne : uid ≠ otherUserId) :
    jsStrLt (orderedPair uid otherUserId).1 (orderedPair uid otherUserId).2 = true := by
  unfold orderedPair
  by_cases h : jsStrLt uid otherUserId = true
  · simp [h]
  · have h3 : jsStrLt uid otherUserId = false := by
      revert h
      cases jsStrLt uid otherUserId <;> simp
    rcases jsStrLt_total hne with h2 | h2
    · exact absurd h2 h
    · simp [h3, h2]

/-- The lookup predicate holds exactly when the row stores the ordered
pair. -/
theorem convFinder_iff_pair (uid otherUserId : String) (c : Conversation) :
    convFinder uid otherUserId c = true ↔
      (c.participant_1_id = (orderedPair uid otherUserId).1 ∧
       c.participant_2_id = (orderedPair uid otherUserId).2) := by
  simp [convFinder, Bool.and_eq_true, beq_iff_eq]

/-- A canonically ordered row of the unordered pair stores exactly the
ordered pair. -/
theorem convFinder_of_between (uid otherUserId : String) (c : Conversation)
    (hc : canonicalConv c = true)
    (hb : convBetween uid otherUserId c = true) :
    convFinder uid otherUserId c = true := by
  rw [convFinder_iff_pair]
  unfold convBetween at hb
  simp only [Bool.or_eq_true, Bool.and_eq_true, beq_iff_eq] at hb
  unfold canonicalConv at hc
  rcases hb with ⟨h1, h2⟩ | ⟨h1, h2⟩
  · have huv : jsStrLt uid otherUserId = true := by
      rw [← h1, ← h2]; exact hc
    simp [orderedPair, huv, h1, h2]
  · have hvu : jsStrLt otherUserId uid = true := by
      rw [← h1, ← h2]; exact hc
    have huv : jsStrLt uid otherUserId = false := jsStrLt_asymm hvu
    simp [orderedPair, huv, h1, h2]

/-- In a list whose elements pairwise never both satisfy `p`, `find?`
returns any member satisfying `p`. -/
theorem find?_eq_some_of_unique {α : Type _} (p : α → Bool) :
    ∀ (l : List α), l.Pairwise (fun a b => ¬(p a = true ∧ p b = true)) →
    ∀ c ∈ l, p c = true → l.find? p = some c := by
  intro l
  induction l with
  | nil =>
    intro _ c hc
    cases hc
  | cons a t ih =>
    intro hpw c hc hpc
    rcases List.mem_cons.mp hc with rfl | hct
    · rw [List.find?_cons_of_pos _ hpc]
    · rcases List.pairwise_cons.mp hpw with ⟨hhead, htail⟩
      have hpa : ¬ p a = true := fun hpa => hhead c hct ⟨hpa, hpc⟩
      rw [List.find?_cons_of_neg _ hpa]
      exact ih htail c hct hpc

/-- In a list whose elements pairwise never both satisfy `p`, at most one
element satisfies `p`. -/
theorem countP_le_one_of_unique {α : Type _} (p : α → Bool) :
    ∀ (l : List α), l.Pairwise (fun a b => ¬(p a = true ∧ p b = true)) →
    l.countP p ≤ 1 := by
  intro l
  induction l with
  | nil => intro _; simp
  | cons a t ih =>
    intro hpw
    rcases List.pairwise_cons.mp hpw with ⟨hhead, htail⟩
    rw [List.countP_cons]
    by_cases hpa : p a = true
    · have h0 : t.countP p = 0 :=
        List.countP_eq_zero.mpr (fun b hb hpb => hhead b hb ⟨hpa, hpb⟩)
      simp [h0, hpa]
    · simp only [hpa, if_false]
      simpa using ih htail

/-- C9: with distinct users, canonically ordered rows and the UNIQUE
constraint, `sendMessage`'s create-or-lookup keeps every row canonically
ordered, preserves the UNIQUE constraint, leaves at most one conversation
row for the unordered pair of the two users, and when a conversation for
that pair already exists it reuses its id and inserts nothing. -/
theorem C9_conversation_uniqueness (uid otherUserId newConvId : String)
    (conversations : List Conversation)
    (hne : uid ≠ otherUserId)
    (hcanon : ∀ c ∈ conversations, canonicalConv c = true)
    (huniq : uniqueParticipantPairs conversations) :
    (∀ c ∈ (sendMessageConversation uid otherUserId conversations newConvId).2,
      canonicalConv c = true) ∧
    uniqueParticipantPairs
      (sendMessageConversation uid otherUserId conversations newConvId).2 ∧
    (sendMessageConversation uid otherUserId conversations newConvId).2.countP
      (convBetween uid otherUserId) ≤ 1 ∧
    (∀ c ∈ conversations, convBetween uid otherUserId c = true →
      (sendMessageConversation uid otherUserId conversations newConvId).1 = c.id ∧
      (sendMessageConversation uid otherUserId conversations newConvId).2 =
        conversations) := by
  have hpwF : conversations.Pairwise
      (fun a b => ¬(convFinder uid otherUserId a = true ∧
                    convFinder uid otherUserId b = true)) := by
    refine List.Pairwise.imp_of_mem ?_ huniq
    intro a b _ _ hab h
    obtain ⟨ha, hb⟩ := h
    obtain ⟨ha1, ha2⟩ := (convFinder_iff_pair uid otherUserId a).mp ha
    obtain ⟨hb1, hb2⟩ := (convFinder_iff_pair uid otherUserId b).mp hb
    exact hab ⟨ha1.trans hb1.symm, ha2.trans hb2.symm⟩
  have hpwB : conversations.Pairwise
      (fun a b => ¬(convBetween uid otherUserId a = true ∧
                    convBetween uid otherUserId b = true)) := by
    refine List.Pairwise.imp_of_mem ?_ hpwF
    intro a b hma hmb hab h
    obtain ⟨ha, hb⟩ := h
    exact hab ⟨convFinder_of_between uid otherUserId a (hcanon a hma) ha,
               convFinder_of_between uid otherUserId b (hcanon b hmb) hb⟩
  rcases hfind : conversations.find? (convFinder uid otherUserId) with _ | c2
  · have hnone := List.find?_eq_none.mp hfind
    have hres : sendMessageConversation uid otherUserId conversations newConvId =
        (newConvId, conversations ++
          [{ id := newConvId,
             participant_1_id := (orderedPair uid otherUserId).1,
             participant_2_id := (orderedPair uid otherUserId).2 }]) := by
      unfold sendMessageConversation
      rw [hfind]
    rw [hres]
    refine ⟨?_, ?_, ?_, ?_⟩
    · intro c hc
      rcases List.mem_append.mp hc with hold | hnew
      · exact hcanon c hold
      · rcases List.mem_singleton.mp hnew with rfl
        exact orderedPair_lt uid otherUserId hne
    · refine List.pairwise_append.mpr ⟨huniq, List.pairwise_singleton _ _, ?_⟩
      intro a ha b hb
      rcases List.mem_singleton.mp hb with rfl
      intro hpair
      refine hnone a ha ?_
      rw [convFinder_iff_pair]
      exact hpair
    · rw [List.countP_append]
      have h0 : conversations.countP (convBetween uid otherUserId) = 0 := by
        refine List.countP_eq_zero.mpr (fun a ha hba => ?_)
        exact hnone a ha (convFinder_of_between uid otherUserId a (hcanon a ha) hba)
      rw [h0]
      simp only [Nat.zero_add, List.countP_cons, List.countP_nil]
      split <;> simp
    · intro c hc hb
      exact absurd (convFinder_of_between uid otherUserId c (hcanon c hc) hb)
        (hnone c hc)
  · have hres : sendMessageConversation uid otherUserId conversations newConvId =
        (c2.id, conversations) := by
      unfold sendMessageConversation
      rw [hfind]
    rw [hres]
    refine ⟨hcanon, huniq, countP_le_one_of_unique _ conversations hpwB, ?_⟩
    intro c hc hb
    have hfc : convFinder uid otherUserId c = true :=
      convFinder_of_between uid otherUserId c (hcanon c hc) hb
    have hfind2 := find?_eq_some_of_unique _ conversations hpwF c hc hfc
    rw [hfind] at hfind2
    obtain rfl : c2 = c := Option.some.inj hfind2
    exact ⟨rfl, rfl⟩

/-- C9 witness: sending a first message between "alice" and "bob" on an
empty conversations table creates the new row and leaves at most one
conversation for the pair. -/
theorem C9_witness :
    (sendMessageConversation "alice" "bob" [] "c1").2.countP
      (convBetween "alice" "bob") ≤ 1 :=
  (C9_conversation_uniqueness "alice" "bob" "c1" [] (by decide)
    (by simp) List.Pairwise.nil).2.2.1
